import Mathlib

/-!
Shallow embedding of the SPDM v1.0.0 message codec of `src/spdm.py`
(libspdm-fuzzer).  The code tables, the version-nibble helpers and the
field layouts of the GET_VERSION and VERSION messages are translated
from the source; the validation and dispatch behaviour that the source
delegates to its packet library is modelled from the specification where
noted.  Bytes are modelled as `Nat` values, byte buffers as `List Nat`
whose elements are `< 256`.
-/

namespace Spdm

/-- The direction a code byte is interpreted under (request vs response
tables of `src/spdm.py`). -/
inductive Direction where
  | request
  | response
deriving DecidableEq

/-- A value stored in the `REQUEST_CODES` / `RESPONSE_CODES` dictionaries of
`src/spdm.py`: symbolic names map to a single code byte, while the extra
`"Reserved"` key maps to a whole list of bytes. -/
inductive TableEntry where
  | code (b : Nat)
  | reservedList (bs : List Nat)
deriving DecidableEq

/-- `INVERSE_REQUEST_CODES` of `src/spdm.py` (byte to name). -/
def INVERSE_REQUEST_CODES : List (Nat × String) :=
  [ (0x81, "GET_DIGESTS"),
    (0x82, "GET_CERTIFICATE"),
    (0x83, "CHALLENGE"),
    (0x84, "GET_VERSION"),
    (0xE0, "GET_MEASUREMENTS"),
    (0xE1, "GET_CAPABILITIES"),
    (0xE3, "NEGOTIATE_ALGORITHMS"),
    (0xFF, "RESPOND_IF_READY"),
    (0xFE, "VENDOR_DEFINED_REQUEST") ]

/-- `REQUEST_CODES` of `src/spdm.py` (name to byte, plus the embedded
`"Reserved"` list, written out exactly as the source writes it:
`[0x80, *range(0x85, 0xDF), 0xE2, *range(0xE4, 0xFD)]`). -/
def REQUEST_CODES : List (String × TableEntry) :=
  [ ("GET_DIGESTS", .code 0x81),
    ("GET_CERTIFICATE", .code 0x82),
    ("CHALLENGE", .code 0x83),
    ("GET_VERSION", .code 0x84),
    ("GET_MEASUREMENTS", .code 0xE0),
    ("GET_CAPABILITIES", .code 0xE1),
    ("NEGOTIATE_ALGORITHMS", .code 0xE3),
    ("RESPOND_IF_READY", .code 0xFF),
    ("VENDOR_DEFINED_REQUEST", .code 0xFE),
    ("Reserved", .reservedList
      ([0x80] ++ List.range' 0x85 (0xDF - 0x85) ++ [0xE2]
        ++ List.range' 0xE4 (0xFD - 0xE4))) ]

/-- `RESERVED_REQUEST_CODES` of `src/spdm.py`:
`[0x80, *range(0x85, 0xDF), 0xE2, *range(0xE4, 0xFD)]`. -/
def RESERVED_REQUEST_CODES : List Nat :=
  [0x80] ++ List.range' 0x85 (0xDF - 0x85) ++ [0xE2]
    ++ List.range' 0xE4 (0xFD - 0xE4)

/-- `INVERSE_RESPONSE_CODES` of `src/spdm.py` (byte to name). -/
def INVERSE_RESPONSE_CODES : List (Nat × String) :=
  [ (0x01, "DIGESTS"),
    (0x02, "CERTIFICATE"),
    (0x03, "CHALLENGE_AUTH"),
    (0x04, "VERSION"),
    (0x60, "MEASUREMENTS"),
    (0x61, "CAPABILITIES"),
    (0x63, "ALGORITHMS"),
    (0x7E, "VENDOR_DEFINED_RESPONSE"),
    (0x7F, "ERROR") ]

/-- `RESPONSE_CODES` of `src/spdm.py` (name to byte, plus the embedded
`"Reserved"` list, written out exactly as the source writes it:
`[0x00, *range(0x05, 0x5F), 0x62, *range(0x64, 0x7D)]`). -/
def RESPONSE_CODES : List (String × TableEntry) :=
  [ ("DIGESTS", .code 0x01),
    ("CERTIFICATE", .code 0x02),
    ("CHALLENGE_AUTH", .code 0x03),
    ("VERSION", .code 0x04),
    ("MEASUREMENTS", .code 0x60),
    ("CAPABILITIES", .code 0x61),
    ("ALGORITHMS", .code 0x63),
    ("VENDOR_DEFINED_RESPONSE", .code 0x7E),
    ("ERROR", .code 0x7F),
    ("Reserved", .reservedList
      ([0x00] ++ List.range' 0x05 (0x5F - 0x05) ++ [0x62]
        ++ List.range' 0x64 (0x7D - 0x64))) ]

/-- `RESERVED_RESPONSE_CODES` of `src/spdm.py`:
`[0x00, *range(0x05, 0x5F), 0x62, *range(0x64, 0x7D)]`. -/
def RESERVED_RESPONSE_CODES : List Nat :=
  [0x00] ++ List.range' 0x05 (0x5F - 0x05) ++ [0x62]
    ++ List.range' 0x64 (0x7D - 0x64)

/-- The request codes marked `# Required` in `src/spdm.py`:
GET_VERSION, GET_CAPABILITIES, NEGOTIATE_ALGORITHMS, RESPOND_IF_READY. -/
def REQUIRED_REQUEST_CODES : List Nat := [0x84, 0xE1, 0xE3, 0xFF]

/-- The request codes marked `# Optional` in `src/spdm.py`:
GET_DIGESTS, GET_CERTIFICATE, CHALLENGE, GET_MEASUREMENTS,
VENDOR_DEFINED_REQUEST. -/
def OPTIONAL_REQUEST_CODES : List Nat := [0x81, 0x82, 0x83, 0xE0, 0xFE]

/-- The response codes marked `# Required` in `src/spdm.py`:
VERSION, CAPABILITIES, ALGORITHMS. -/
def REQUIRED_RESPONSE_CODES : List Nat := [0x04, 0x61, 0x63]

/-- The response codes marked `# Optional` in `src/spdm.py`:
DIGESTS, CERTIFICATE, CHALLENGE_AUTH, MEASUREMENTS,
VENDOR_DEFINED_RESPONSE.  (`ERROR` 0x7F carries no classification
comment in the source.) -/
def OPTIONAL_RESPONSE_CODES : List Nat := [0x01, 0x02, 0x03, 0x60, 0x7E]

/-- `SPDM_VERSION` of `src/spdm.py`. -/
def SPDM_VERSION : Nat := 0x10

/-- `SPDMUtil.spdm_major_version` of `src/spdm.py`: `version & 0xF0`. -/
def spdm_major_version (version : Nat) : Nat := version &&& 0xF0

/-- `SPDMUtil.spdm_minor_version` of `src/spdm.py`: `version & 0x0F`. -/
def spdm_minor_version (version : Nat) : Nat := version &&& 0x0F

/-- The name-to-code direction of the tables: look a symbolic name up in
`REQUEST_CODES` / `RESPONSE_CODES`; only single-byte entries count as
assigned codes. -/
def nameToCode (d : Direction) (n : String) : Option Nat :=
  let table := match d with
    | .request => REQUEST_CODES
    | .response => RESPONSE_CODES
  match table.lookup n with
  | some (.code b) => some b
  | _ => none

/-- The per-direction inverse (byte-to-name) table of `src/spdm.py`. -/
def inverseTable (d : Direction) : List (Nat × String) :=
  match d with
  | .request => INVERSE_REQUEST_CODES
  | .response => INVERSE_RESPONSE_CODES

/-- The per-direction standalone reserved-code list of `src/spdm.py`. -/
def reservedCodes (d : Direction) : List Nat :=
  match d with
  | .request => RESERVED_REQUEST_CODES
  | .response => RESERVED_RESPONSE_CODES

/-- Outcome of classifying one code byte. -/
inductive CodeClass where
  | name (s : String)
  | reservedByte
  | unassigned
deriving DecidableEq

/-- Classify a code byte under a direction: an assigned symbolic name when
the byte is a key of the inverse table, `reservedByte` when it lies in the
direction's reserved list, `unassigned` otherwise. -/
def codeToName (d : Direction) (b : Nat) : CodeClass :=
  match (inverseTable d).lookup b with
  | some n => .name n
  | none => if b ∈ reservedCodes d then .reservedByte else .unassigned

/-- Modelled from the spec: the error taxonomy of spec section 7
(`TruncatedError`, `MalformedError`, `ReservedCodeError`,
`UnimplementedVariantError`); the source itself raises no typed codec
errors.  `unassignedCode` covers bytes that are neither assigned nor in a
reserved list. -/
inductive SpdmError where
  | truncated
  | malformedData
  | reservedCode
  | unimplementedVariant
  | unassignedCode
deriving DecidableEq

/-- `SPDMGetVersionMessage` of `src/spdm.py`: four `XByteField`s with the
source's defaults (`SPDMVersion` defaults to `0x1`, the code byte to
`REQUEST_CODES["GET_VERSION"]`, both parameters to `0x00`). -/
structure SPDMGetVersionMessage where
  SPDMVersion : Nat := 0x1
  RequestResponseCode : Nat := (nameToCode .request "GET_VERSION").getD 0
  Param1 : Nat := 0x00
  Param2 : Nat := 0x00
deriving DecidableEq

/-- The `SPDMGetVersionMessage()` value built from the source's field
defaults alone. -/
def defaultGetVersionMessage : SPDMGetVersionMessage := {}

/-- `SPDMVersionMessage` of `src/spdm.py`: five `XByteField`s, a
`FieldLenField` counting the entries (a `None` default means the count is
derived from the entry list at build time), and the entry list itself.
The scapy byte fields whose default is `None` serialize as `0`, which is
the default used here. -/
structure SPDMVersionMessage where
  SPDMVersion : Nat := 0x10
  RequestResponseCode : Nat := (nameToCode .response "VERSION").getD 0
  Param1 : Nat := 0
  Param2 : Nat := 0
  Reserved : Nat := 0
  VersionNumberEntryCount : Option Nat := none
  VersionNumberEntry : List Nat := []
deriving DecidableEq

/-- Serialize the 16-bit `VersionNumberEntry` list the way the source's
`XShortField` does (`struct` format `"!H"`, network order: high byte
first, low byte second). -/
def encodeEntries : List Nat → List Nat
  | [] => []
  | e :: es => e / 256 :: e % 256 :: encodeEntries es

/-- Parse `n` 16-bit entries off the front of a byte stream, the way the
source's `FieldListField` repeats its `XShortField` (high byte first);
`none` when the stream runs out. -/
def parseEntries : Nat → List Nat → Option (List Nat × List Nat)
  | 0, s => some ([], s)
  | n + 1, hi :: lo :: s =>
      (parseEntries n s).map (fun p => ((hi * 256 + lo) :: p.1, p.2))
  | _ + 1, _ => none

/-- `bytes(SPDMGetVersionMessage)`: the four header bytes in order. -/
def encodeGetVersion (m : SPDMGetVersionMessage) : List Nat :=
  [m.SPDMVersion, m.RequestResponseCode, m.Param1, m.Param2]

/-- Modelled from the spec: the GET_VERSION decoder (the source only
declares the field layout; its validation is given by spec section 4.4:
`MalformedError` when the length differs from 4 or byte 2 is not
0x84). -/
def decodeGetVersion (buf : List Nat) : Except SpdmError SPDMGetVersionMessage :=
  match buf with
  | [v, c, p1, p2] =>
      if c ≠ 0x84 then .error .malformedData
      else .ok ⟨v, c, p1, p2⟩
  | _ => .error .malformedData

/-- `bytes(SPDMVersionMessage)`: the five header bytes, then the
entry-count byte (the stored count when the caller supplied one, the
entry-list length when the stored count is `None` — scapy's
`FieldLenField.i2m` computes the count only for a `None` value), then
the serialized entries. -/
def encodeVersion (m : SPDMVersionMessage) : List Nat :=
  [m.SPDMVersion, m.RequestResponseCode, m.Param1, m.Param2, m.Reserved,
    match m.VersionNumberEntryCount with
    | some c => c
    | none => m.VersionNumberEntry.length]
  ++ encodeEntries m.VersionNumberEntry

/-- Modelled from the spec: the VERSION decoder's validation policy
(spec section 4.5) over the field layout of `src/spdm.py`:
`TruncatedError` when fewer than 6 bytes are present or when the buffer
is shorter than `6 + 2 * entryCount` for the declared count byte at
offset 5; `MalformedError` when byte 2 is not 0x04; on success the
parsed message together with a trailing-data warning flag (`true` when
surplus bytes follow the declared entries). -/
def decodeVersion (buf : List Nat) :
    Except SpdmError (SPDMVersionMessage × Bool) :=
  if buf.length < 6 then .error .truncated
  else
    let cnt := buf.getD 5 0
    if buf.length < 6 + 2 * cnt then .error .truncated
    else if buf.getD 1 0 ≠ 0x04 then .error .malformedData
    else
      match parseEntries cnt (buf.drop 6) with
      | some (es, trailing) =>
          .ok (⟨buf.getD 0 0, buf.getD 1 0, buf.getD 2 0, buf.getD 3 0,
                buf.getD 4 0, some cnt, es⟩, !trailing.isEmpty)
      | none => .error .truncated

/-- A decoded SPDM message: one constructor per message variant whose
field layout `src/spdm.py` actually fills in. -/
inductive SPDMMessage where
  | getVersion (m : SPDMGetVersionMessage)
  | version (m : SPDMVersionMessage)
deriving DecidableEq

/-- Modelled from the spec: the top-level dispatch of spec sections 4.3
and 4.7.  Reading the 4-byte header comes first (`TruncatedError` on a
shorter buffer); the code byte is then classified under the supplied
direction: reserved bytes give `ReservedCodeError`, assigned names with
a filled-in layout (GET_VERSION for requests, VERSION for responses)
delegate to that variant's decoder, assigned names whose classes are
empty placeholders in `src/spdm.py` give `UnimplementedVariantError`.
The `Bool` is the VERSION variant's trailing-data warning. -/
def decode (buf : List Nat) (d : Direction) :
    Except SpdmError (SPDMMessage × Bool) :=
  match buf with
  | _ :: c :: _ :: _ :: _ =>
      (match codeToName d c with
      | .reservedByte => .error .reservedCode
      | .unassigned => .error .unassignedCode
      | .name n =>
          match d, n with
          | .request, "GET_VERSION" =>
              (decodeGetVersion buf).map (fun m => (.getVersion m, false))
          | .response, "VERSION" =>
              (decodeVersion buf).map (fun p => (.version p.1, p.2))
          | _, _ => .error .unimplementedVariant)
  | _ => .error .truncated

/-- A well-formed VERSION message value (spec section 3): the code byte
is the VERSION code 0x04, the stored entry count is present and equal to
the number of entries, all single-byte fields are bytes, the count fits
in one byte, and every entry fits in 16 bits. -/
def WellFormedVersion (m : SPDMVersionMessage) : Prop :=
  m.RequestResponseCode = 0x04 ∧
  m.VersionNumberEntryCount = some m.VersionNumberEntry.length ∧
  m.SPDMVersion < 256 ∧ m.Param1 < 256 ∧ m.Param2 < 256 ∧
  m.Reserved < 256 ∧ m.VersionNumberEntry.length < 256 ∧
  ∀ e ∈ m.VersionNumberEntry, e < 65536

instance (m : SPDMVersionMessage) : Decidable (WellFormedVersion m) := by
  unfold WellFormedVersion; infer_instance

deriving instance DecidableEq for Except

theorem length_encodeEntries (es : List Nat) :
    (encodeEntries es).length = 2 * es.length := by
  induction es with
  | nil => rfl
  | cons e es ih => simp [encodeEntries, ih]; omega

theorem parseEntries_encodeEntries (es t : List Nat) :
    parseEntries es.length (encodeEntries es ++ t) = some (es, t) := by
  induction es with
  | nil => rfl
  | cons e es ih =>
      have hdm : e / 256 * 256 + e % 256 = e := by omega
      simp [encodeEntries, parseEntries, ih, hdm]

theorem parseEntries_inv (n : Nat) (s es t : List Nat)
    (h : parseEntries n s = some (es, t)) (hb : ∀ x ∈ s, x < 256) :
    encodeEntries es ++ t = s := by
  induction n generalizing s es t with
  | zero =>
      simp only [parseEntries, Option.some.injEq, Prod.mk.injEq] at h
      obtain ⟨rfl, rfl⟩ := h
      rfl
  | succ n ih =>
      cases s with
      | nil => simp [parseEntries] at h
      | cons hi s1 =>
        cases s1 with
        | nil => simp [parseEntries] at h
        | cons lo s =>
          simp only [parseEntries, Option.map_eq_some'] at h
          obtain ⟨⟨es', t'⟩, hp, heq⟩ := h
          injection heq with h1 h2
          subst h1
          subst h2
          have hlo : lo < 256 := hb lo (by simp)
          have hhi : (hi * 256 + lo) / 256 = hi := by omega
          have hlo2 : (hi * 256 + lo) % 256 = lo := by omega
          have hrec := ih s es' t' hp (fun x hx => hb x (by simp [hx]))
          simp only [encodeEntries, hhi, hlo2, List.cons_append, hrec]

/-- C1: for every well-formed VERSION message, decoding the encoding
gives back exactly the same message with no trailing-data warning; and
for every byte buffer the VERSION decoder accepts without a
trailing-data warning, encoding the decoded message reproduces the
buffer exactly. -/
theorem version_encode_decode_roundtrip :
    (∀ m : SPDMVersionMessage, WellFormedVersion m →
      decodeVersion (encodeVersion m) = .ok (m, false)) ∧
    (∀ (b : List Nat) (m : SPDMVersionMessage), (∀ x ∈ b, x < 256) →
      decodeVersion b = .ok (m, false) → encodeVersion m = b) := by
  constructor
  · intro m hm
    obtain ⟨v, c, p1, p2, r, cntO, es⟩ := m
    simp only [WellFormedVersion] at hm
    obtain ⟨hc, hcnt, -, -, -, -, -, -⟩ := hm
    subst hc
    subst hcnt
    simp only [encodeVersion, List.cons_append, List.nil_append]
    simp only [decodeVersion, List.length_cons, List.length_append,
      length_encodeEntries, List.getD_cons_succ, List.getD_cons_zero,
      List.drop_succ_cons, List.drop_zero]
    have h1 : ¬ (es.length + (2 * es.length + 5) + 1 < 6 ∨
        es.length + (2 * es.length + 5) + 1 < 6 + 2 * es.length) := by
      omega
    rw [if_neg (fun h => h1 (Or.inl (by omega)))]
    rw [if_neg (by omega)]
    rw [if_neg (by omega)]
    have hparse := parseEntries_encodeEntries es []
    rw [List.append_nil] at hparse
    rw [hparse]
    simp
  · intro b m hb h
    rcases b with - | ⟨b0, b⟩
    · simp [decodeVersion] at h
    rcases b with - | ⟨b1, b⟩
    · simp [decodeVersion] at h
    rcases b with - | ⟨b2, b⟩
    · simp [decodeVersion] at h
    rcases b with - | ⟨b3, b⟩
    · simp [decodeVersion] at h
    rcases b with - | ⟨b4, b⟩
    · simp [decodeVersion] at h
    rcases b with - | ⟨b5, rest⟩
    · simp [decodeVersion] at h
    simp only [decodeVersion, List.length_cons, List.getD_cons_succ,
      List.getD_cons_zero, List.drop_succ_cons, List.drop_zero] at h
    rw [if_neg (by omega)] at h
    by_cases hlen : rest.length + 5 + 1 < 6 + 2 * b5
    · rw [if_pos hlen] at h; exact absurd h (by simp)
    rw [if_neg hlen] at h
    by_cases hcode : b1 ≠ 0x04
    · rw [if_pos hcode] at h; exact absurd h (by simp)
    rw [if_neg hcode] at h
    push_neg at hcode
    subst hcode
    match hp : parseEntries b5 rest with
    | none => rw [hp] at h; exact absurd h (by simp)
    | some (es, trailing) =>
        rw [hp] at h
        simp only [Except.ok.injEq, Prod.mk.injEq, Bool.not_eq_false',
          List.isEmpty_iff] at h
        obtain ⟨hm, htr⟩ := h
        subst hm
        have hrest : encodeEntries es ++ trailing = rest :=
          parseEntries_inv b5 rest es trailing hp
            (fun x hx => hb x (by simp [hx]))
        subst htr
        rw [List.append_nil] at hrest
        simp [encodeVersion, hrest]

/-- C1 witness: the round trip evaluated on the sample VERSION message
and the sample 10-byte buffer of `src/spdm.py`. -/
theorem version_encode_decode_roundtrip_check :
    decodeVersion (encodeVersion
        ⟨0x10, 0x04, 0, 0, 0, some 2, [0x1000, 0x1200]⟩) =
      .ok (⟨0x10, 0x04, 0, 0, 0, some 2, [0x1000, 0x1200]⟩, false) ∧
    encodeVersion ⟨0x10, 0x04, 0, 0, 0, some 2, [0x1000, 0x1200]⟩ =
      [0x10, 0x04, 0x00, 0x00, 0x00, 0x02, 0x10, 0x00, 0x12, 0x00] := by
  constructor
  · exact version_encode_decode_roundtrip.1
      ⟨0x10, 0x04, 0, 0, 0, some 2, [0x1000, 0x1200]⟩ (by decide)
  · exact version_encode_decode_roundtrip.2
      [0x10, 0x04, 0x00, 0x00, 0x00, 0x02, 0x10, 0x00, 0x12, 0x00]
      ⟨0x10, 0x04, 0, 0, 0, some 2, [0x1000, 0x1200]⟩ (by decide) (by decide)

/-- The request bytes assigned to none of the three request
classifications of `src/spdm.py` (derived fact): everything below 0x80,
plus 0xDF (`range(0x85, 0xDF)` stops at 0xDE) and 0xFD
(`range(0xE4, 0xFD)` stops at 0xFC). -/
def REQUEST_CODE_GAPS : List Nat := List.range 0x80 ++ [0xDF, 0xFD]

/-- The response bytes assigned to none of the three response
classifications of `src/spdm.py` (derived fact): 0x5F and 0x7D fall just
outside the half-open reserved ranges, 0x7F (ERROR) carries no
Required/Optional marking in the source, and everything from 0x80 up is
untouched. -/
def RESPONSE_CODE_GAPS : List Nat := [0x5F, 0x7D, 0x7F] ++ List.range' 0x80 0x80

/-- The classification facts that do hold at one byte value: the
Required/Optional/Reserved sets of each direction are pairwise disjoint
there, and the byte is covered by their union exactly when it is outside
the corresponding gap list. -/
def CodeClassFactsAt (b : Nat) : Prop :=
  (¬ (b ∈ REQUIRED_REQUEST_CODES ∧ b ∈ OPTIONAL_REQUEST_CODES) ∧
   ¬ (b ∈ REQUIRED_REQUEST_CODES ∧ b ∈ RESERVED_REQUEST_CODES) ∧
   ¬ (b ∈ OPTIONAL_REQUEST_CODES ∧ b ∈ RESERVED_REQUEST_CODES) ∧
   ((b ∈ REQUIRED_REQUEST_CODES ∨ b ∈ OPTIONAL_REQUEST_CODES ∨
      b ∈ RESERVED_REQUEST_CODES) ↔ b ∉ REQUEST_CODE_GAPS)) ∧
  (¬ (b ∈ REQUIRED_RESPONSE_CODES ∧ b ∈ OPTIONAL_RESPONSE_CODES) ∧
   ¬ (b ∈ REQUIRED_RESPONSE_CODES ∧ b ∈ RESERVED_RESPONSE_CODES) ∧
   ¬ (b ∈ OPTIONAL_RESPONSE_CODES ∧ b ∈ RESERVED_RESPONSE_CODES) ∧
   ((b ∈ REQUIRED_RESPONSE_CODES ∨ b ∈ OPTIONAL_RESPONSE_CODES ∨
      b ∈ RESERVED_RESPONSE_CODES) ↔ b ∉ RESPONSE_CODE_GAPS))

instance (b : Nat) : Decidable (CodeClassFactsAt b) := by
  unfold CodeClassFactsAt; infer_instance

/-- C2 counterexample: request byte 0x00 belongs to none of the three
request classifications, so the three sets do not cover the byte
range. -/
theorem request_code_space_has_gap :
    ¬ (0x00 ∈ REQUIRED_REQUEST_CODES ∨ 0x00 ∈ OPTIONAL_REQUEST_CODES ∨
        0x00 ∈ RESERVED_REQUEST_CODES) := by decide

set_option maxRecDepth 16384 in
/-- C2 amended: for every byte, the Required, Optional and Reserved sets
of each direction are pairwise disjoint, but their union misses exactly
the gap bytes (request: 0x00 to 0x7F, 0xDF, 0xFD; response: 0x5F, 0x7D,
0x7F, 0x80 to 0xFF), so the classification has no overlap but does have
gaps. -/
theorem code_classification_disjoint_with_gaps :
    ∀ b : Nat, b < 256 → CodeClassFactsAt b := by decide

/-- C2 witness: the classification facts evaluated at byte 0x84. -/
theorem code_classification_disjoint_with_gaps_check :
    CodeClassFactsAt 0x84 :=
  code_classification_disjoint_with_gaps 0x84 (by decide)

/-- C3 counterexample: a VERSION message holding two entries but a
caller-supplied count of 5 is encoded with count byte 5, not 2 — the
caller-supplied count is emitted verbatim, not overwritten. -/
theorem encode_emits_caller_count_verbatim :
    (encodeVersion ⟨0x10, 0x04, 0, 0, 0, some 5, [0x1000, 0x1200]⟩).getD 5 0
        = 5 ∧
    (encodeVersion ⟨0x10, 0x04, 0, 0, 0, some 5, [0x1000, 0x1200]⟩).getD 5 0
        ≠ 2 := by decide

/-- C3 amended: the emitted VersionNumberEntryCount byte is the
caller-supplied count whenever one was supplied, and is derived from the
length of the entries sequence only when the caller left the count
unset; in particular entries [0x1000, 0x1200] with an unset count encode
to count byte 2. -/
theorem version_count_byte_rule :
    (∀ m : SPDMVersionMessage,
      (encodeVersion m).getD 5 0 =
        match m.VersionNumberEntryCount with
        | some c => c
        | none => m.VersionNumberEntry.length) ∧
    (encodeVersion ⟨0x10, 0x04, 0, 0, 0, none, [0x1000, 0x1200]⟩).getD 5 0
        = 2 :=
  ⟨fun _ => rfl, by decide⟩

/-- C4: the VersionNumberEntry field is serialized high byte first
(scapy `XShortField`, `struct` format `"!H"`), not low byte first:
decoding the sample buffer yields entries [0x1000, 0x1200] rather than
the little-endian reading [0x0010, 0x0012], and entry 0x0010 is emitted
as bytes [0x00, 0x10]. -/
theorem version_entries_wire_big_endian :
    decodeVersion [0x10, 0x04, 0x00, 0x00, 0x00, 0x02, 0x10, 0x00, 0x12, 0x00]
        = .ok (⟨0x10, 0x04, 0x00, 0x00, 0x00, some 2, [0x1000, 0x1200]⟩,
            false) ∧
    ([0x1000, 0x1200] : List Nat) ≠ [0x0010, 0x0012] ∧
    encodeEntries [0x0010] = [0x00, 0x10] ∧
    encodeEntries [0x0010] ≠ [0x10, 0x00] := by decide

/-- C5: the source's default GET_VERSION message carries version byte
0x01 (field default `0x1`), so it encodes to [0x01, 0x84, 0x00, 0x00]
and not to the [0x10, 0x84, 0x00, 0x00] the specification requires;
conversely decoding [0x10, 0x84, 0x00, 0x00] yields a message whose
version byte 0x10 differs from the default message. -/
theorem get_version_default_encoding_bytes :
    encodeGetVersion defaultGetVersionMessage = [0x01, 0x84, 0x00, 0x00] ∧
    encodeGetVersion defaultGetVersionMessage ≠ [0x10, 0x84, 0x00, 0x00] ∧
    decodeGetVersion [0x10, 0x84, 0x00, 0x00] =
        .ok ⟨0x10, 0x84, 0x00, 0x00⟩ ∧
    (⟨0x10, 0x84, 0x00, 0x00⟩ : SPDMGetVersionMessage)
        ≠ defaultGetVersionMessage := by decide

/-- C6: the VERSION decoder rejects with `TruncatedError` every buffer
shorter than 6 bytes, and every buffer shorter than `6 + 2 * entryCount`
for the count byte declared at offset 5; in particular the 5-byte sample
and the count-3-with-one-entry sample are rejected. -/
theorem version_decode_truncation :
    (∀ b : List Nat, b.length < 6 → decodeVersion b = .error .truncated) ∧
    (∀ b : List Nat, b.length < 6 + 2 * b.getD 5 0 →
      decodeVersion b = .error .truncated) ∧
    decodeVersion [0x10, 0x04, 0x00, 0x00, 0x00] = .error .truncated ∧
    decodeVersion [0x10, 0x04, 0x00, 0x00, 0x00, 0x03, 0x10, 0x00]
        = .error .truncated := by
  refine ⟨?_, ?_, by decide, by decide⟩
  · intro b hb
    simp only [decodeVersion, if_pos hb]
  · intro b hb
    by_cases h6 : b.length < 6
    · simp only [decodeVersion, if_pos h6]
    · simp only [decodeVersion, if_neg h6, if_pos hb]

/-- C6 witness: the truncation rule applied to a 1-byte buffer and to an
8-byte buffer declaring 7 entries. -/
theorem version_decode_truncation_check :
    decodeVersion [0x10] = .error .truncated ∧
    decodeVersion [0x10, 0x04, 0x00, 0x00, 0x00, 0x07, 0x10, 0x00]
        = .error .truncated :=
  ⟨version_decode_truncation.1 [0x10] (by decide),
    version_decode_truncation.2.1 [0x10, 0x04, 0x00, 0x00, 0x00, 0x07,
      0x10, 0x00] (by decide)⟩

theorem reserved_not_assigned (d : Direction) :
    ∀ c ∈ reservedCodes d, (inverseTable d).lookup c = none := by
  cases d <;> decide

/-- C7 counterexample: a 2-byte buffer whose second byte is the reserved
request code 0x80 fails with `TruncatedError` (the 4-byte header is read
before the code byte is classified), not with `ReservedCodeError`. -/
theorem decode_reserved_code_short_buffer :
    decode [0x10, 0x80] .request = .error .truncated ∧
    SpdmError.truncated ≠ SpdmError.reservedCode := by decide

/-- C7 amended: once a full 4-byte header is present, a code byte in the
direction's reserved list makes `decode` fail with `ReservedCodeError`,
and an assigned code byte whose message class is an empty placeholder
(every assigned request code except GET_VERSION 0x84, every assigned
response code except VERSION 0x04) makes it fail with
`UnimplementedVariantError`; buffers shorter than the header fail with
`TruncatedError` even when their second byte is reserved. -/
theorem decode_dispatch_errors :
    (∀ (d : Direction) (v c p1 p2 : Nat) (rest : List Nat),
      c ∈ reservedCodes d →
      decode (v :: c :: p1 :: p2 :: rest) d = .error .reservedCode) ∧
    (∀ (v c p1 p2 : Nat) (rest : List Nat),
      c ∈ [0x81, 0x82, 0x83, 0xE0, 0xE1, 0xE3, 0xFF, 0xFE] →
      decode (v :: c :: p1 :: p2 :: rest) .request
        = .error .unimplementedVariant) ∧
    (∀ (v c p1 p2 : Nat) (rest : List Nat),
      c ∈ [0x01, 0x02, 0x03, 0x60, 0x61, 0x63, 0x7E, 0x7F] →
      decode (v :: c :: p1 :: p2 :: rest) .response
        = .error .unimplementedVariant) := by
  refine ⟨?_, ?_, ?_⟩
  · intro d v c p1 p2 rest hc
    have h1 : codeToName d c = .reservedByte := by
      rw [codeToName, reserved_not_assigned d c hc]
      simp [hc]
    simp only [decode, h1]
  · intro v c p1 p2 rest hc
    fin_cases hc <;> rfl
  · intro v c p1 p2 rest hc
    fin_cases hc <;> rfl

/-- C7 witness: the dispatch errors evaluated on concrete 4-byte
buffers with codes 0x80 (reserved request), 0xE1 (GET_CAPABILITIES,
unimplemented request) and 0x61 (CAPABILITIES, unimplemented
response). -/
theorem decode_dispatch_errors_check :
    decode [0x10, 0x80, 0x00, 0x00] .request = .error .reservedCode ∧
    decode [0x10, 0xE1, 0x00, 0x00] .request
        = .error .unimplementedVariant ∧
    decode [0x10, 0x61, 0x00, 0x00] .response
        = .error .unimplementedVariant :=
  ⟨decode_dispatch_errors.1 .request 0x10 0x80 0x00 0x00 [] (by decide),
    decode_dispatch_errors.2.1 0x10 0xE1 0x00 0x00 [] (by decide),
    decode_dispatch_errors.2.2 0x10 0x61 0x00 0x00 [] (by decide)⟩

/-- C8: the version-nibble helpers compute `v & 0xF0` and `v & 0x0F` for
every value, and take the documented values at 0x10 and 0x12. -/
theorem spdm_version_nibbles :
    (∀ v : Nat, spdm_major_version v = v &&& 0xF0 ∧
      spdm_minor_version v = v &&& 0x0F) ∧
    spdm_major_version 0x10 = 0x10 ∧ spdm_minor_version 0x10 = 0x00 ∧
    spdm_major_version 0x12 = 0x10 ∧ spdm_minor_version 0x12 = 0x02 :=
  ⟨fun _ => ⟨rfl, rfl⟩, by decide, by decide, by decide, by decide⟩

/-- C9: the name-to-code and code-to-name tables are mutual inverses on
the assigned codes: every single-byte entry of `REQUEST_CODES` /
`RESPONSE_CODES` classifies back to its own name under `codeToName`, and
every entry of the inverse tables maps back to its own byte under
`nameToCode`. -/
theorem code_tables_mutual_inverse :
    (REQUEST_CODES.all fun p =>
      match p.2 with
      | TableEntry.code b => decide (codeToName .request b = .name p.1)
      | TableEntry.reservedList _ => true) = true ∧
    (INVERSE_REQUEST_CODES.all fun q =>
      decide (nameToCode .request q.2 = some q.1)) = true ∧
    (RESPONSE_CODES.all fun p =>
      match p.2 with
      | TableEntry.code b => decide (codeToName .response b = .name p.1)
      | TableEntry.reservedList _ => true) = true ∧
    (INVERSE_RESPONSE_CODES.all fun q =>
      decide (nameToCode .response q.2 = some q.1)) = true := by
  refine ⟨?_, ?_, ?_, ?_⟩ <;> decide

/-- C10: the list stored under the `"Reserved"` key of `REQUEST_CODES`
equals the standalone `RESERVED_REQUEST_CODES` list, and likewise for
the response tables. -/
theorem reserved_lists_agree :
    REQUEST_CODES.lookup "Reserved"
        = some (.reservedList RESERVED_REQUEST_CODES) ∧
    RESPONSE_CODES.lookup "Reserved"
        = some (.reservedList RESERVED_RESPONSE_CODES) := by decide

end Spdm
